import Mathlib

/-!
Shallow embedding of the transactional ledger core of the MySelavu budget
tracker (`src/lib/database.ts`).

Modelling conventions:
* SQLite `REAL` amounts are modelled as `Int` (the claims only involve
  integer amounts; floating-point rounding is outside the embedding).
* The `balances` table always holds exactly one row per payment method
  (it is seeded at initialization and never deleted), so it is modelled
  as a structure with one field per method.
* A JavaScript `Date` argument of `getAllTransactions` is represented by
  the epoch-millisecond value of its local start of day, so
  `setHours(0,0,0,0)` is the identity and `setHours(23,59,59,999)` adds
  `86399999`.
* `Date.now()` and `uuidv4()` are passed in as explicit arguments.
* `Math.random()` draws in `generateTestDataForMonth` are passed in as an
  explicit `TestDraw` record per generated transaction.
* Each `BEGIN TRANSACTION … COMMIT/ROLLBACK` block is modelled as a pure
  function returning either the committed state or the unchanged input
  state (rollback).
-/

inductive PaymentMethod
  | gpay
  | cash
deriving DecidableEq, Repr

structure Category where
  id : Nat
  name : String
  monthlyLimit : Option Int
deriving DecidableEq, Repr

structure Txn where
  id : String
  timestamp : Int
  paymentMethod : PaymentMethod
  categoryId : Nat
  amount : Int
  reason : Option String
deriving DecidableEq, Repr

structure Balances where
  gpay : Int
  cash : Int
deriving DecidableEq, Repr

/-- Models `SELECT amount FROM balances WHERE type = ?` (row always present). -/
def Balances.get (b : Balances) : PaymentMethod → Int
  | .gpay => b.gpay
  | .cash => b.cash

/-- Models `UPDATE balances SET amount = ? WHERE type = ?`. -/
def Balances.set (b : Balances) (m : PaymentMethod) (v : Int) : Balances :=
  match m with
  | .gpay => { b with gpay := v }
  | .cash => { b with cash := v }

structure DBState where
  categories : List Category
  balances : Balances
  transactions : List Txn
deriving DecidableEq, Repr

/-- Models `SELECT … FROM categories WHERE id = ?` (first row). -/
def findCategory (cats : List Category) (cid : Nat) : Option Category :=
  cats.find? (fun c => c.id == cid)

/-- JavaScript `String.prototype.toLowerCase()` (character-wise lowering;
all names in play are ASCII).  Defined over the character list so that the
kernel can evaluate it. -/
def strToLower (s : String) : String :=
  ⟨s.data.map Char.toLower⟩

/-- JavaScript `String.prototype.trim()`: strip leading and trailing
whitespace.  Defined over the character list so that the kernel can
evaluate it. -/
def strTrim (s : String) : String :=
  ⟨((s.data.dropWhile Char.isWhitespace).reverse.dropWhile
      Char.isWhitespace).reverse⟩

/-- Models `name.toLowerCase() === 'gain'`. -/
def isGainName (name : String) : Bool :=
  strToLower name == "gain"

/-- Models `category?.name.toLowerCase() === 'gain'` for a transaction's category
resolved by id (an unresolvable category counts as non-gain, exactly as the
optional-chaining expression evaluates to `undefined === 'gain'`). -/
def txnWasGain (cats : List Category) (t : Txn) : Bool :=
  match findCategory cats t.categoryId with
  | some c => isGainName c.name
  | none => false

/-- The signed effect of a transaction on its payment method's balance:
`+amount` for a Gain-category transaction, `-amount` otherwise. -/
def effect (cats : List Category) (t : Txn) : Int :=
  if txnWasGain cats t then t.amount else -t.amount

/-- Models `data.reason || null`: JavaScript `||` maps the empty string to null. -/
def reasonOrNull (r : Option String) : Option String :=
  match r with
  | some s => if s == "" then none else some s
  | none => none

structure NewTransactionData where
  paymentMethod : PaymentMethod
  categoryId : Nat
  amount : Int
  reason : Option String
deriving DecidableEq, Repr

/-- Models `addTransaction` (database.ts:418-496).  `newId` stands for the
generated `uuidv4()` and `timestamp` for `Date.now()`.  Returns the
inserted transaction on success; on any failure the surrounding SQL
transaction is rolled back, leaving the state unchanged. -/
def addTransaction (st : DBState) (newId : String) (timestamp : Int)
    (data : NewTransactionData) : Option Txn × DBState :=
  match findCategory st.categories data.categoryId with
  | none => (none, st)
  | some cat =>
    let isGain := isGainName cat.name
    let currentBalance := st.balances.get data.paymentMethod
    let newBalance :=
      if isGain then currentBalance + data.amount else currentBalance - data.amount
    if st.transactions.any (fun t => t.id == newId) then
      (none, st)
    else
      let txn : Txn :=
        { id := newId, timestamp := timestamp, paymentMethod := data.paymentMethod,
          categoryId := data.categoryId, amount := data.amount,
          reason := data.reason }
      (some txn,
       { st with balances := st.balances.set data.paymentMethod newBalance,
                 transactions := st.transactions ++ [txn] })

/-- Models `deleteTransaction` (database.ts:586-636).  The lookup joins the
transaction with its category; a missing row (or a dangling category id,
which the foreign-key constraint prevents) yields `false` after rollback. -/
def deleteTransaction (st : DBState) (tid : String) : Bool × DBState :=
  match st.transactions.find? (fun t => t.id == tid) with
  | none => (false, st)
  | some t =>
    match findCategory st.categories t.categoryId with
    | none => (false, st)
    | some cat =>
      let isGain := isGainName cat.name
      let currentBalance := st.balances.get t.paymentMethod
      let newBalance :=
        if isGain then currentBalance - t.amount else currentBalance + t.amount
      (true,
       { st with
           transactions := st.transactions.filter (fun u => u.id != tid),
           balances := st.balances.set t.paymentMethod newBalance })

/-- The row update performed by `updateTransaction`:
`UPDATE transactions SET amount = ?, reason = ?, paymentMethod = ?,
categoryId = ?, timestamp = ? WHERE id = ?` applied to one row (the id is
preserved). -/
def updRow (data : NewTransactionData) (now : Int) (t : Txn) : Txn :=
  { t with amount := data.amount, reason := reasonOrNull data.reason,
           paymentMethod := data.paymentMethod,
           categoryId := data.categoryId, timestamp := now }

/-- Models `updateTransaction` (database.ts:771-853).  `now` stands for the
`Date.now()` used to refresh the row's timestamp.  Any failure (missing
transaction or missing new category) rolls the SQL transaction back. -/
def updateTransaction (st : DBState) (tid : String) (data : NewTransactionData)
    (now : Int) : Bool × DBState :=
  match st.transactions.find? (fun t => t.id == tid) with
  | none => (false, st)
  | some oldT =>
    match findCategory st.categories data.categoryId with
    | none => (false, st)
    | some newCat =>
      let wasGain := txnWasGain st.categories oldT
      let isGain := isGainName newCat.name
      let balances1 :=
        if oldT.paymentMethod != data.paymentMethod then
          let revertAmount := if wasGain then -oldT.amount else oldT.amount
          let b1 := st.balances.set oldT.paymentMethod
            (st.balances.get oldT.paymentMethod + revertAmount)
          let applyAmount := if isGain then data.amount else -data.amount
          b1.set data.paymentMethod (b1.get data.paymentMethod + applyAmount)
        else
          let oldEffect := if wasGain then oldT.amount else -oldT.amount
          let newEffect := if isGain then data.amount else -data.amount
          st.balances.set data.paymentMethod
            (st.balances.get data.paymentMethod + (newEffect - oldEffect))
      let newTxns := st.transactions.map (fun t =>
        if t.id == tid then updRow data now t else t)
      (true, { st with balances := balances1, transactions := newTxns })

/-- Models `updateCategory` (database.ts:377-393).  Validation failures and the
`UNIQUE` name constraint are caught and reported as `false`; otherwise the
row with the given id (if any) is updated. -/
def updateCategory (st : DBState) (id : Nat) (name : String)
    (limit : Option Int) : Bool × DBState :=
  let trimmedName := strTrim name
  if trimmedName == "" then (false, st)
  else if strToLower trimmedName == "all" then (false, st)
  else if st.categories.any (fun c => c.id != id && c.name == trimmedName) then
    (false, st)
  else if st.categories.any (fun c => c.id == id) then
    (true,
     { st with categories := st.categories.map (fun c =>
         if c.id == id then { c with name := trimmedName, monthlyLimit := limit }
         else c) })
  else (false, st)

/-- Models `deleteCategory` (database.ts:396-411).  The `ON DELETE RESTRICT`
foreign key makes the `DELETE` fail (caught, returning `false`) whenever a
transaction still references the category; an unknown id deletes zero rows
and also returns `false`. -/
def deleteCategory (st : DBState) (id : Nat) : Bool × DBState :=
  if st.categories.any (fun c => c.id == id) then
    if st.transactions.any (fun t => t.categoryId == id) then (false, st)
    else (true, { st with categories := st.categories.filter (fun c => c.id != id) })
  else (false, st)

/-! ## Query layer: `getAllTransactions` (database.ts:499-583) -/

/-- The `paymentMethod?: 'all' | 'gpay' | 'cash'` filter field. -/
inductive PMFilter
  | all
  | only (m : PaymentMethod)
deriving DecidableEq, Repr

/-- The `category?: 'all' | string` filter field (by category name). -/
inductive CatFilter
  | all
  | byName (s : String)
deriving DecidableEq, Repr

structure TransactionFilters where
  startDate : Option Int := none
  endDate : Option Int := none
  paymentMethod : Option PMFilter := none
  category : Option CatFilter := none
  searchText : Option String := none
  year : Option Int := none
  month : Option Int := none
  limit : Option Int := none
deriving DecidableEq, Repr

/-- A transaction row joined with its category's name
(`JOIN categories c ON t.categoryId = c.id`). -/
structure JoinedTxn where
  txn : Txn
  categoryName : String
deriving DecidableEq, Repr

def joinTxns (st : DBState) : List JoinedTxn :=
  st.transactions.filterMap (fun t =>
    (findCategory st.categories t.categoryId).map (fun c => ⟨t, c.name⟩))

/-- Civil-calendar day count since 1970-01-01 (proleptic Gregorian); used to
model `new Date(year, month-1, day).getTime()`.  The JavaScript value is in
the device's local time zone; the embedding fixes the offset at zero. -/
def daysFromCivil (y m d : Int) : Int :=
  let y2 := if m ≤ 2 then y - 1 else y
  let era := (if 0 ≤ y2 then y2 else y2 - 399) / 400
  let yoe := y2 - era * 400
  let mp := (m + 9) % 12
  let doy := (153 * mp + 2) / 5 + d - 1
  let doe := yoe * 365 + yoe / 4 - yoe / 100 + doy
  era * 146097 + doe - 719468

def monthStartMillis (y mo : Int) : Int :=
  daysFromCivil y mo 1 * 86400000

/-- Models `new Date(year, month, 0).getTime()`: the last day of 1-based month
`mo` is the day before the first day of the next month. -/
def monthLastDayMillis (y mo : Int) : Int :=
  (if mo == 12 then monthStartMillis (y + 1) 1 else monthStartMillis y (mo + 1))
    - 86400000

/-- Models `t.timestamp >= ?` with the start date clamped to 00:00:00.000. -/
def clauseStart (f : TransactionFilters) (j : JoinedTxn) : Bool :=
  match f.startDate with
  | some sd => decide (sd ≤ j.txn.timestamp)
  | none => true

/-- Models `t.timestamp <= ?` with the end date clamped to 23:59:59.999. -/
def clauseEnd (f : TransactionFilters) (j : JoinedTxn) : Bool :=
  match f.endDate with
  | some ed => decide (j.txn.timestamp ≤ ed + 86399999)
  | none => true

/-- The `else if (filters.year && filters.month)` fallback month window,
active only when no end date is supplied and both year and month are
truthy (non-zero). -/
def clauseDateFallback (f : TransactionFilters) (j : JoinedTxn) : Bool :=
  match f.endDate with
  | some _ => true
  | none =>
    match f.year, f.month with
    | some y, some mo =>
      if y != 0 && mo != 0 then
        decide (monthStartMillis y mo ≤ j.txn.timestamp) &&
          decide (j.txn.timestamp ≤ monthLastDayMillis y mo + 86399999)
      else true
    | _, _ => true

/-- Models `t.paymentMethod = ?` when the filter is present and not `'all'`. -/
def clausePaymentMethod (f : TransactionFilters) (j : JoinedTxn) : Bool :=
  match f.paymentMethod with
  | some (.only m) => j.txn.paymentMethod == m
  | _ => true

/-- Models `c.name = ?` when the filter is present, non-empty and not `'all'`
(the empty string is falsy in JavaScript, so it disables the clause). -/
def clauseCategory (f : TransactionFilters) (j : JoinedTxn) : Bool :=
  match f.category with
  | some (.byName s) => if s == "" then true else j.categoryName == s
  | _ => true

def charsBegin : List Char → List Char → Bool
  | _, [] => true
  | [], _ :: _ => false
  | a :: as, b :: bs => a == b && charsBegin as bs

def charsContain : List Char → List Char → Bool
  | [], needle => needle.isEmpty
  | a :: as, needle => charsBegin (a :: as) needle || charsContain as needle

/-- SQLite `LIKE '%x%'`: ASCII-case-insensitive substring match. -/
def containsCI (hay needle : String) : Bool :=
  charsContain (strToLower hay).data (strToLower needle).data

/-- Models `t.reason LIKE ?` when search text is present and non-blank; a NULL
reason never matches (SQL three-valued logic drops the row). -/
def clauseSearch (f : TransactionFilters) (j : JoinedTxn) : Bool :=
  match f.searchText with
  | some s =>
    if strTrim s == "" then true
    else
      match j.txn.reason with
      | some r => containsCI r (strTrim s)
      | none => false
  | none => true

/-- The `WHERE` clause: all supplied filters joined with `AND`. -/
def matchesFilters (f : TransactionFilters) (j : JoinedTxn) : Bool :=
  clauseStart f j && clauseEnd f j && clauseDateFallback f j &&
    clausePaymentMethod f j && clauseCategory f j && clauseSearch f j

/-- Models `getAllTransactions` (database.ts:499-583): join, filter, sort by
timestamp descending, and apply `LIMIT` only when a positive limit is
supplied (`filters.limit && filters.limit > 0`). -/
def getAllTransactions (st : DBState) (f : TransactionFilters) : List JoinedTxn :=
  let filtered := (joinTxns st).filter (matchesFilters f)
  let sorted := filtered.mergeSort (fun a b => decide (b.txn.timestamp ≤ a.txn.timestamp))
  match f.limit with
  | some n => if 0 < n then sorted.take n.toNat else sorted
  | none => sorted

/-! ## Seeding utility: `generateTestDataForMonth` (database.ts:641-746) -/

/-- One iteration's worth of `Math.random()` draws. -/
structure TestDraw where
  coin : Bool
  expIdx : Nat
  gainAmount : Int
  expAmount : Int
  pm : PaymentMethod
  ts : Int
  reason : String
deriving DecidableEq, Repr

/-- An element of `transactionsToAdd`. -/
structure PendingTxn where
  paymentMethod : PaymentMethod
  categoryId : Nat
  amount : Int
  reason : Option String
  timestamp : Int
deriving DecidableEq, Repr

/-- The `else if (expenseCategories.length > 0)` branch: pick an expense
category by random index, or skip (`continue`) when none exist. -/
def pickExpenseTxn (expenseCategories : List Category) (d : TestDraw) :
    Option PendingTxn :=
  match expenseCategories.get? (d.expIdx % expenseCategories.length) with
  | some c => some ⟨d.pm, c.id, d.expAmount, some (d.reason ++ " (Test)"), d.ts⟩
  | none => none

/-- One iteration of the generation loop:
`const isGain = gainCategory && Math.random() < 0.1`, so a gain
transaction can only be chosen when a Gain category exists. -/
def chooseTestTxn (gainCategory : Option Category)
    (expenseCategories : List Category) (d : TestDraw) : Option PendingTxn :=
  match gainCategory with
  | some gc =>
    if d.coin then
      some ⟨d.pm, gc.id, d.gainAmount, some (d.reason ++ " (Test)"), d.ts⟩
    else pickExpenseTxn expenseCategories d
  | none => pickExpenseTxn expenseCategories d

/-- Models `category?.name.toLowerCase() === 'gain'` for a pending insertion. -/
def pendingIsGain (cats : List Category) (p : PendingTxn) : Bool :=
  match cats.find? (fun c => c.id == p.categoryId) with
  | some c => isGainName c.name
  | none => false

/-- One insertion step of the `withTransactionAsync` loop: a gain is always
credited and inserted; an expense is debited and inserted only when the
method's balance covers it, and is otherwise skipped.  `none` models a
thrown error (duplicate generated id) aborting the whole enclosing SQL
transaction. -/
def insertTestTxn (cats : List Category) (st : DBState) (p : PendingTxn)
    (newId : String) : Option DBState :=
  let row : Txn :=
    ⟨newId, p.timestamp, p.paymentMethod, p.categoryId, p.amount,
      reasonOrNull p.reason⟩
  if pendingIsGain cats p then
    if st.transactions.any (fun t => t.id == newId) then none
    else some
      { st with
          balances := st.balances.set p.paymentMethod
            (st.balances.get p.paymentMethod + p.amount),
          transactions := st.transactions ++ [row] }
  else
    if p.amount ≤ st.balances.get p.paymentMethod then
      if st.transactions.any (fun t => t.id == newId) then none
      else some
        { st with
            balances := st.balances.set p.paymentMethod
              (st.balances.get p.paymentMethod - p.amount),
            transactions := st.transactions ++ [row] }
    else some st

/-- The insertion loop over `transactionsToAdd`; `ids i` stands for the
`uuidv4()` generated for the i-th attempted insertion. -/
def runTestInserts (cats : List Category) (ids : Nat → String) :
    List PendingTxn → Nat → DBState → Option DBState
  | [], _, st => some st
  | p :: rest, i, st =>
    match insertTestTxn cats st p (ids i) with
    | none => none
    | some st2 => runTestInserts cats ids rest (i + 1) st2

/-- Models `generateTestDataForMonth` (database.ts:641-746).  `draws` supplies the
random choices for each of the `count` iterations; timestamps are already
resolved inside each draw. -/
def generateTestDataForMonth (st : DBState) (draws : List TestDraw)
    (ids : Nat → String) : Bool × DBState :=
  let categories := st.categories.mergeSort (fun a b => decide (a.name ≤ b.name))
  let expenseCategories := categories.filter (fun c => !(isGainName c.name))
  let gainCategory := categories.find? (fun c => isGainName c.name)
  if expenseCategories.length == 0 && gainCategory.isNone then (false, st)
  else
    let pending := draws.filterMap (chooseTestTxn gainCategory expenseCategories)
    match runTestInserts categories ids pending 0 st with
    | some st2 => (true, st2)
    | none => (false, st)

/-! ## The seeded initial state (`DEFAULT_CATEGORIES`, balances 0) -/

def seedState : DBState :=
  { categories :=
      [⟨1, "Uncategorized", none⟩, ⟨2, "Gain", none⟩, ⟨3, "Groceries", none⟩,
       ⟨4, "Transport", none⟩, ⟨5, "Bills", none⟩, ⟨6, "Entertainment", none⟩,
       ⟨7, "Other Expense", none⟩],
    balances := ⟨0, 0⟩,
    transactions := [] }

/-- A small consistent state used to exercise the operations: two
transactions on gpay (an expense of 100 in Groceries, a gain of 300), so
the gpay balance is `-100 + 300 = 200`. -/
def demoState : DBState :=
  { categories := seedState.categories,
    balances := ⟨200, 0⟩,
    transactions :=
      [⟨"tx1", 10, .gpay, 3, 100, some "milk"⟩,
       ⟨"tx2", 20, .gpay, 2, 300, none⟩] }

/-- A one-transaction state (a 50 expense on cash) for the method-switch
witness; its cash balance is `-50`, matching the transaction's effect. -/
def demoState2 : DBState :=
  { categories := seedState.categories,
    balances := ⟨100, -50⟩,
    transactions := [⟨"s1", 7, .cash, 4, 50, none⟩] }


/-! ## The ledger state machine for the C1 invariant -/

/-- One ledger mutation, with the environment-supplied values
(generated id, clock reading) recorded in the operation. -/
inductive LedgerOp
  | addTx (newId : String) (timestamp : Int) (data : NewTransactionData)
  | updateTx (id : String) (data : NewTransactionData) (now : Int)
  | deleteTx (id : String)
deriving DecidableEq, Repr

def applyOp (st : DBState) : LedgerOp → DBState
  | .addTx i ts d => (addTransaction st i ts d).2
  | .updateTx i d n => (updateTransaction st i d n).2
  | .deleteTx i => (deleteTransaction st i).2

def applyOps (st : DBState) (ops : List LedgerOp) : DBState :=
  ops.foldl applyOp st

/-- A single transaction's contribution to method `m`'s balance. -/
def contrib (cats : List Category) (m : PaymentMethod) (t : Txn) : Int :=
  if t.paymentMethod == m then effect cats t else 0

/-- The sum of effects of the transactions on payment method `m`. -/
def txnSum (cats : List Category) (m : PaymentMethod) (l : List Txn) : Int :=
  ((l.filter (fun t => t.paymentMethod == m)).map (effect cats)).sum

/-- The C1 invariant: each method's stored balance equals the sum of the
effects of the currently-existing transactions on that method. -/
def BalanceInv (st : DBState) : Prop :=
  ∀ m, st.balances.get m = txnSum st.categories m st.transactions

/-- The `transactions.id` PRIMARY KEY constraint of the schema. -/
def IdsNodup (st : DBState) : Prop :=
  (st.transactions.map Txn.id).Nodup

instance : Fintype PaymentMethod :=
  ⟨⟨{PaymentMethod.gpay, PaymentMethod.cash}, by decide⟩,
   fun x => by cases x <;> decide⟩

instance (st : DBState) : Decidable (BalanceInv st) :=
  decidable_of_iff
    (∀ m, st.balances.get m = txnSum st.categories m st.transactions) Iff.rfl

instance (st : DBState) : Decidable (IdsNodup st) :=
  List.nodupDecidable _

/-! ## Helper lemmas -/

theorem Balances.get_set_self (b : Balances) (m : PaymentMethod) (v : Int) :
    (b.set m v).get m = v := by
  cases m <;> rfl

theorem Balances.get_set_ne (b : Balances) (m m2 : PaymentMethod) (v : Int)
    (h : m ≠ m2) : (b.set m v).get m2 = b.get m2 := by
  cases m <;> cases m2 <;> first | rfl | exact absurd rfl h

theorem find?_eq_none_of_forall {l : List Txn} {tid : String}
    (h : ∀ t ∈ l, t.id ≠ tid) :
    l.find? (fun t => t.id == tid) = none :=
  List.find?_eq_none.mpr (fun t ht => by simpa using h t ht)

/-! ## C2 -/

/-- C2: the claim "updateCategory on a reserved category with a changed
name fails, and deleteCategory on a reserved category always fails" is
false: on the freshly seeded state, renaming the reserved "Gain" category
(id 2) succeeds and deleting either reserved category succeeds. -/
theorem c2_reserved_counterexample :
    (updateCategory seedState 2 "Profit" none).1 = true ∧
    ((updateCategory seedState 2 "Profit" none).2.categories.find?
        (fun c => c.id == 2)).map Category.name = some "Profit" ∧
    (deleteCategory seedState 2).1 = true ∧
    (deleteCategory seedState 1).1 = true := by
  decide

/-- C2 (amended): `updateCategory` and `deleteCategory` perform no
reserved-category check.  Renaming any category (reserved or not) succeeds
whenever the generic validation passes (non-empty trimmed name, not "all",
no name collision, id exists), and deleting any existing category succeeds
exactly when no transaction references it. -/
theorem c2_no_reserved_check (st : DBState) (id : Nat) (name : String)
    (limit : Option Int)
    (hne : strTrim name ≠ "")
    (hall : strToLower (strTrim name) ≠ "all")
    (huniq : ∀ c ∈ st.categories, c.id ≠ id → c.name ≠ strTrim name)
    (hex : ∃ c ∈ st.categories, c.id = id) :
    (updateCategory st id name limit).1 = true ∧
    ((∀ t ∈ st.transactions, t.categoryId ≠ id) →
      (deleteCategory st id).1 = true) := by
  have h1 : (strTrim name == "") = false := by
    simpa using hne
  have h2 : (strToLower (strTrim name) == "all") = false := by
    simpa using hall
  have h3 : st.categories.any (fun c => c.id != id && c.name == strTrim name)
      = false := by
    simp only [List.any_eq_false, Bool.and_eq_true, bne_iff_ne, beq_iff_eq,
      not_and]
    intro c hc hcid
    exact huniq c hc hcid
  have h4 : st.categories.any (fun c => c.id == id) = true := by
    obtain ⟨c, hc, hcid⟩ := hex
    exact List.any_eq_true.mpr ⟨c, hc, by simpa using hcid⟩
  constructor
  · simp [updateCategory, h1, h2, h3, h4]
  · intro hnoref
    have h5 : st.transactions.any (fun t => t.categoryId == id) = false := by
      simp only [List.any_eq_false, beq_iff_eq]
      exact hnoref
    simp [deleteCategory, h4, h5]

/-- Witness for C2 (amended) at the seeded state and the reserved "Gain"
category (id 2). -/
theorem c2_no_reserved_check_witness :
    (updateCategory seedState 2 "Profit" none).1 = true ∧
    ((∀ t ∈ seedState.transactions, t.categoryId ≠ 2) →
      (deleteCategory seedState 2).1 = true) :=
  c2_no_reserved_check seedState 2 "Profit" none (by decide) (by decide)
    (by decide) (by decide)

/-! ## C9, C10, C5, C6 -/

/-- C9: updating a transaction id that does not exist returns false and
leaves the whole state (every balance and every transaction row)
unchanged. -/
theorem c9_update_not_found (st : DBState) (tid : String)
    (data : NewTransactionData) (now : Int)
    (h : ∀ t ∈ st.transactions, t.id ≠ tid) :
    updateTransaction st tid data now = (false, st) := by
  simp [updateTransaction, find?_eq_none_of_forall h]

/-- Witness for C9. -/
theorem c9_update_not_found_witness :
    updateTransaction demoState "ghost" ⟨.gpay, 3, 40, none⟩ 77
      = (false, demoState) :=
  c9_update_not_found demoState "ghost" ⟨.gpay, 3, 40, none⟩ 77 (by decide)

/-- C10: an absent, zero, or negative limit applies no result cap; the
query behaves exactly as with no limit field. -/
theorem c10_limit_inactive (st : DBState) (f : TransactionFilters)
    (h : f.limit = none ∨ f.limit = some 0 ∨ ∃ n : Int, n ≤ 0 ∧ f.limit = some n) :
    getAllTransactions st f = getAllTransactions st { f with limit := none } := by
  rcases h with h | h | ⟨n, hn, h⟩
  · simp only [getAllTransactions, h]
    rfl
  · simp only [getAllTransactions, h]
    rw [if_neg (by norm_num : ¬ (0 : Int) < 0)]
    rfl
  · simp only [getAllTransactions, h]
    rw [if_neg (by omega : ¬ (0 : Int) < n)]
    rfl

/-- Witness for C10 with a negative limit. -/
theorem c10_limit_inactive_witness :
    getAllTransactions demoState { limit := some (-5) }
      = getAllTransactions demoState
          { ({ limit := some (-5) } : TransactionFilters) with limit := none } :=
  c10_limit_inactive demoState { limit := some (-5) }
    (Or.inr (Or.inr ⟨-5, by norm_num, rfl⟩))

/-- C5: for a valid input (existing category, fresh generated id),
`addTransaction` succeeds, inserts the row, and sets the method's balance
to `balance + amount` for the Gain category and `balance - amount`
otherwise — with no overdraft rejection or clamping, since the balance is
an arbitrary integer and no hypothesis restricts the result's sign. -/
theorem c5_add_transaction (st : DBState) (newId : String) (ts : Int)
    (data : NewTransactionData) (cat : Category)
    (hcat : findCategory st.categories data.categoryId = some cat)
    (hfresh : ∀ t ∈ st.transactions, t.id ≠ newId) :
    addTransaction st newId ts data =
      (some ⟨newId, ts, data.paymentMethod, data.categoryId, data.amount,
         data.reason⟩,
       { st with
           balances := st.balances.set data.paymentMethod
             (if isGainName cat.name then
                st.balances.get data.paymentMethod + data.amount
              else st.balances.get data.paymentMethod - data.amount),
           transactions := st.transactions ++
             [⟨newId, ts, data.paymentMethod, data.categoryId, data.amount,
               data.reason⟩] }) := by
  have hany : st.transactions.any (fun t => t.id == newId) = false := by
    simp only [List.any_eq_false, beq_iff_eq]
    exact hfresh
  simp [addTransaction, hcat, hany]

/-- Witness for C5: adding a 100 expense on gpay from the seeded state
(balance 0) succeeds and drives the balance to -100. -/
theorem c5_add_transaction_witness :
    addTransaction seedState "t1" 5 ⟨.gpay, 3, 100, none⟩ =
      (some ⟨"t1", 5, .gpay, 3, 100, none⟩,
       { seedState with
           balances := seedState.balances.set .gpay
             (if isGainName "Groceries" then
                seedState.balances.get .gpay + 100
              else seedState.balances.get .gpay - 100),
           transactions := seedState.transactions ++
             [⟨"t1", 5, .gpay, 3, 100, none⟩] }) :=
  c5_add_transaction seedState "t1" 5 ⟨.gpay, 3, 100, none⟩
    ⟨3, "Groceries", none⟩ (by decide) (by decide)

/-- C6: deleting a non-existent transaction returns false and changes
nothing; deleting an existing transaction removes its row and applies the
reverse effect to its method's balance (minus the amount for a Gain
transaction, plus the amount otherwise). -/
theorem c6_delete_transaction (st : DBState) (tid : String) :
    ((∀ t ∈ st.transactions, t.id ≠ tid) →
      deleteTransaction st tid = (false, st)) ∧
    (∀ t cat, st.transactions.find? (fun u => u.id == tid) = some t →
      findCategory st.categories t.categoryId = some cat →
      deleteTransaction st tid =
        (true,
         { st with
             transactions := st.transactions.filter (fun u => u.id != tid),
             balances := st.balances.set t.paymentMethod
               (if isGainName cat.name then
                  st.balances.get t.paymentMethod - t.amount
                else st.balances.get t.paymentMethod + t.amount) })) := by
  constructor
  · intro h
    simp [deleteTransaction, find?_eq_none_of_forall h]
  · intro t cat hfind hcat
    simp [deleteTransaction, hfind, hcat]

/-- Witness for C6: both branches on the demo state. -/
theorem c6_delete_transaction_witness :
    deleteTransaction demoState "zzz" = (false, demoState) ∧
    deleteTransaction demoState "tx2" =
      (true,
       { demoState with
           transactions := demoState.transactions.filter (fun u => u.id != "tx2"),
           balances := demoState.balances.set PaymentMethod.gpay
             (if isGainName "Gain" then
                demoState.balances.get PaymentMethod.gpay - 300
              else demoState.balances.get PaymentMethod.gpay + 300) }) :=
  ⟨(c6_delete_transaction demoState "zzz").1 (by decide),
   (c6_delete_transaction demoState "tx2").2 ⟨"tx2", 20, .gpay, 2, 300, none⟩
     ⟨2, "Gain", none⟩ (by decide) (by decide)⟩

/-- C3: moving an existing amount-100 transaction from a non-Gain category
to the Gain category, keeping its payment method and amount, succeeds and
raises that method's balance by exactly 200. -/
theorem c3_update_sign_flip (st : DBState) (tid : String) (t : Txn)
    (gid : Nat) (g : Category) (reason : Option String) (now : Int)
    (hfind : st.transactions.find? (fun u => u.id == tid) = some t)
    (hamt : t.amount = 100)
    (hold : txnWasGain st.categories t = false)
    (hg : findCategory st.categories gid = some g)
    (hgname : isGainName g.name = true) :
    (updateTransaction st tid ⟨t.paymentMethod, gid, 100, reason⟩ now).1
        = true ∧
    (updateTransaction st tid ⟨t.paymentMethod, gid, 100, reason⟩ now).2.balances.get
        t.paymentMethod
      = st.balances.get t.paymentMethod + 200 := by
  simp only [updateTransaction, hfind, hg, hold, hgname, bne_self_eq_false,
    Bool.false_eq_true, if_false, if_true, hamt]
  refine ⟨trivial, ?_⟩
  simp [Balances.get_set_self]
  try ring

/-- Witness for C3: moving demo transaction "tx1" (100, Groceries, gpay)
to the Gain category raises the gpay balance from 200 to 400. -/
theorem c3_update_sign_flip_witness :
    (updateTransaction demoState "tx1" ⟨.gpay, 2, 100, some "milk"⟩ 99).1
        = true ∧
    (updateTransaction demoState "tx1" ⟨.gpay, 2, 100, some "milk"⟩ 99).2.balances.get
        .gpay
      = demoState.balances.get .gpay + 200 :=
  c3_update_sign_flip demoState "tx1" ⟨"tx1", 10, .gpay, 3, 100, some "milk"⟩
    2 ⟨2, "Gain", none⟩ (some "milk") 99 (by decide) (by decide) (by decide)
    (by decide) (by decide)

/-- C4: switching only the payment method of an existing amount-50 expense
transaction from A to B succeeds, increases balance(A) by 50, decreases
balance(B) by 50, and leaves the sum of the two balances unchanged. -/
theorem c4_update_method_switch (st : DBState) (tid : String) (t : Txn)
    (B : PaymentMethod) (cat : Category) (reason : Option String) (now : Int)
    (hfind : st.transactions.find? (fun u => u.id == tid) = some t)
    (hamt : t.amount = 50)
    (hcat : findCategory st.categories t.categoryId = some cat)
    (hnotgain : isGainName cat.name = false)
    (hAB : t.paymentMethod ≠ B) :
    (updateTransaction st tid ⟨B, t.categoryId, 50, reason⟩ now).1 = true ∧
    (updateTransaction st tid ⟨B, t.categoryId, 50, reason⟩ now).2.balances.get
        t.paymentMethod
      = st.balances.get t.paymentMethod + 50 ∧
    (updateTransaction st tid ⟨B, t.categoryId, 50, reason⟩ now).2.balances.get B
      = st.balances.get B - 50 ∧
    (updateTransaction st tid ⟨B, t.categoryId, 50, reason⟩ now).2.balances.get
          t.paymentMethod
        + (updateTransaction st tid ⟨B, t.categoryId, 50, reason⟩ now).2.balances.get B
      = st.balances.get t.paymentMethod + st.balances.get B := by
  have hwas : txnWasGain st.categories t = false := by
    simp [txnWasGain, hcat, hnotgain]
  have hbne : (t.paymentMethod != B) = true := by
    simpa using hAB
  simp only [updateTransaction, hfind, hcat, hwas, hnotgain, hbne, if_true,
    Bool.false_eq_true, if_false, hamt]
  refine ⟨trivial, ?_, ?_, ?_⟩ <;>
    simp [Balances.get_set_self, Balances.get_set_ne _ _ _ _ hAB,
      Balances.get_set_ne _ _ _ _ (Ne.symm hAB)] <;>
    try ring

/-- Witness for C4: switching the 50 expense from cash to gpay. -/
theorem c4_update_method_switch_witness :
    (updateTransaction demoState2 "s1" ⟨.gpay, 4, 50, none⟩ 42).1 = true ∧
    (updateTransaction demoState2 "s1" ⟨.gpay, 4, 50, none⟩ 42).2.balances.get
        .cash
      = demoState2.balances.get .cash + 50 ∧
    (updateTransaction demoState2 "s1" ⟨.gpay, 4, 50, none⟩ 42).2.balances.get
        PaymentMethod.gpay
      = demoState2.balances.get PaymentMethod.gpay - 50 ∧
    (updateTransaction demoState2 "s1" ⟨.gpay, 4, 50, none⟩ 42).2.balances.get
          .cash
        + (updateTransaction demoState2 "s1" ⟨.gpay, 4, 50, none⟩ 42).2.balances.get
            PaymentMethod.gpay
      = demoState2.balances.get .cash
        + demoState2.balances.get PaymentMethod.gpay :=
  c4_update_method_switch demoState2 "s1" ⟨"s1", 7, .cash, 4, 50, none⟩
    .gpay ⟨4, "Transport", none⟩ none 42 (by decide) (by decide) (by decide)
    (by decide) (by decide)

/-! ## C7 helpers -/

theorem getAllTransactions_sorted (st : DBState) (f : TransactionFilters) :
    (getAllTransactions st f).Pairwise
      (fun a b => b.txn.timestamp ≤ a.txn.timestamp) := by
  have hs :=
    @List.sorted_mergeSort JoinedTxn
      (fun a b => decide (b.txn.timestamp ≤ a.txn.timestamp))
      (by intro a b c hab hbc; simp_all; omega)
      (by intro a b; simp; omega)
      ((joinTxns st).filter (matchesFilters f))
  have hp : (((joinTxns st).filter (matchesFilters f)).mergeSort
      (fun a b => decide (b.txn.timestamp ≤ a.txn.timestamp))).Pairwise
      (fun a b => b.txn.timestamp ≤ a.txn.timestamp) := by
    refine hs.imp ?_
    intro a b h
    simpa using h
  unfold getAllTransactions
  match h : f.limit with
  | none => exact hp
  | some n =>
    by_cases h0 : 0 < n
    · simp only [if_pos h0]
      exact hp.sublist (List.take_sublist _ _)
    · simp only [if_neg h0]
      exact hp

theorem mem_getAllTransactions (st : DBState) (f : TransactionFilters)
    (hl : f.limit = none) (j : JoinedTxn) :
    j ∈ getAllTransactions st f ↔
      j ∈ joinTxns st ∧ clauseStart f j = true ∧ clauseEnd f j = true ∧
        clauseDateFallback f j = true ∧ clausePaymentMethod f j = true ∧
        clauseCategory f j = true ∧ clauseSearch f j = true := by
  simp only [getAllTransactions, hl, List.mem_mergeSort, List.mem_filter,
    matchesFilters, Bool.and_eq_true]
  tauto

/-- C7: query results are ordered newest first by timestamp; a
`{category := "Groceries"}` filter returns only rows whose joined category
name is "Groceries"; a same-day `{startDate := D, endDate := D}` filter
returns only rows with timestamp in `[D, D + 86399999]`; and in general a
row is returned exactly when it satisfies every supplied filter clause
conjoined. -/
theorem c7_query_filters :
    (∀ st f, (getAllTransactions st f).Pairwise
        (fun a b => b.txn.timestamp ≤ a.txn.timestamp)) ∧
    (∀ st j,
        j ∈ getAllTransactions st { category := some (.byName "Groceries") } →
        j.categoryName = "Groceries") ∧
    (∀ st (D : Int) j,
        j ∈ getAllTransactions st { startDate := some D, endDate := some D } →
        D ≤ j.txn.timestamp ∧ j.txn.timestamp ≤ D + 86399999) ∧
    (∀ st f, f.limit = none → ∀ j,
        (j ∈ getAllTransactions st f ↔
          j ∈ joinTxns st ∧ clauseStart f j = true ∧ clauseEnd f j = true ∧
            clauseDateFallback f j = true ∧ clausePaymentMethod f j = true ∧
            clauseCategory f j = true ∧ clauseSearch f j = true)) := by
  refine ⟨getAllTransactions_sorted, ?_, ?_,
    fun st f hl j => mem_getAllTransactions st f hl j⟩
  · intro st j hj
    have h := (mem_getAllTransactions st _ rfl j).mp hj
    obtain ⟨-, -, -, -, -, hcat, -⟩ := h
    simpa [clauseCategory] using hcat
  · intro st D j hj
    have h := (mem_getAllTransactions st _ rfl j).mp hj
    obtain ⟨-, hs, he, -⟩ := h
    constructor
    · simpa [clauseStart] using hs
    · simpa [clauseEnd] using he

/-- Witness for C7 on the demo state: "tx1" joined with "Groceries". -/
theorem c7_query_filters_witness :
    (getAllTransactions demoState { category := some (.byName "Groceries") }).Pairwise
        (fun a b => b.txn.timestamp ≤ a.txn.timestamp) ∧
    (⟨⟨"tx1", 10, .gpay, 3, 100, some "milk"⟩, "Groceries"⟩ : JoinedTxn).categoryName
        = "Groceries" ∧
    ((0 : Int) ≤ (10 : Int) ∧ (10 : Int) ≤ (0 : Int) + 86399999) ∧
    ((⟨⟨"tx1", 10, .gpay, 3, 100, some "milk"⟩, "Groceries"⟩ : JoinedTxn)
        ∈ getAllTransactions demoState { category := some (.byName "Groceries") } ↔
      (⟨⟨"tx1", 10, .gpay, 3, 100, some "milk"⟩, "Groceries"⟩ : JoinedTxn)
          ∈ joinTxns demoState ∧
        clauseStart { category := some (.byName "Groceries") }
            ⟨⟨"tx1", 10, .gpay, 3, 100, some "milk"⟩, "Groceries"⟩ = true ∧
        clauseEnd { category := some (.byName "Groceries") }
            ⟨⟨"tx1", 10, .gpay, 3, 100, some "milk"⟩, "Groceries"⟩ = true ∧
        clauseDateFallback { category := some (.byName "Groceries") }
            ⟨⟨"tx1", 10, .gpay, 3, 100, some "milk"⟩, "Groceries"⟩ = true ∧
        clausePaymentMethod { category := some (.byName "Groceries") }
            ⟨⟨"tx1", 10, .gpay, 3, 100, some "milk"⟩, "Groceries"⟩ = true ∧
        clauseCategory { category := some (.byName "Groceries") }
            ⟨⟨"tx1", 10, .gpay, 3, 100, some "milk"⟩, "Groceries"⟩ = true ∧
        clauseSearch { category := some (.byName "Groceries") }
            ⟨⟨"tx1", 10, .gpay, 3, 100, some "milk"⟩, "Groceries"⟩ = true) := by
  have hmem : (⟨⟨"tx1", 10, .gpay, 3, 100, some "milk"⟩, "Groceries"⟩ : JoinedTxn)
      ∈ getAllTransactions demoState { category := some (.byName "Groceries") } := by
    exact (mem_getAllTransactions demoState _ rfl _).mpr (by decide)
  have hmemD : (⟨⟨"tx1", 10, .gpay, 3, 100, some "milk"⟩, "Groceries"⟩ : JoinedTxn)
      ∈ getAllTransactions demoState { startDate := some 0, endDate := some 0 } := by
    exact (mem_getAllTransactions demoState _ rfl _).mpr (by decide)
  exact ⟨c7_query_filters.1 demoState _,
    c7_query_filters.2.1 demoState _ hmem,
    c7_query_filters.2.2.1 demoState 0 _ hmemD,
    c7_query_filters.2.2.2 demoState _ rfl _⟩

/-! ## C8 helpers -/

theorem insertTestTxn_skip (cats : List Category) (st : DBState)
    (p : PendingTxn) (i : String)
    (hg : pendingIsGain cats p = false)
    (hlow : st.balances.get p.paymentMethod < p.amount) :
    insertTestTxn cats st p i = some st := by
  simp [insertTestTxn, hg, not_le.mpr hlow]

/-- C8: in the seeding utility, a gain transaction can only be chosen when
a Gain category exists (with none, every draw takes the expense path); a
chosen gain is always credited and inserted with no balance check; a
chosen expense is debited and inserted only when the method's balance
covers the amount, and an insufficient balance skips just that insertion,
leaving the state unchanged while the batch loop continues with the
remaining pending transactions. -/
theorem c8_generate_test_data :
    (∀ expCats d, chooseTestTxn none expCats d = pickExpenseTxn expCats d) ∧
    (∀ cats st p i, pendingIsGain cats p = true →
        (∀ t ∈ st.transactions, t.id ≠ i) →
        insertTestTxn cats st p i = some
          { st with
              balances := st.balances.set p.paymentMethod
                (st.balances.get p.paymentMethod + p.amount),
              transactions := st.transactions ++
                [⟨i, p.timestamp, p.paymentMethod, p.categoryId, p.amount,
                  reasonOrNull p.reason⟩] }) ∧
    (∀ cats st p i, pendingIsGain cats p = false →
        p.amount ≤ st.balances.get p.paymentMethod →
        (∀ t ∈ st.transactions, t.id ≠ i) →
        insertTestTxn cats st p i = some
          { st with
              balances := st.balances.set p.paymentMethod
                (st.balances.get p.paymentMethod - p.amount),
              transactions := st.transactions ++
                [⟨i, p.timestamp, p.paymentMethod, p.categoryId, p.amount,
                  reasonOrNull p.reason⟩] }) ∧
    (∀ cats st p i, pendingIsGain cats p = false →
        st.balances.get p.paymentMethod < p.amount →
        insertTestTxn cats st p i = some st) ∧
    (∀ cats ids p rest n st, pendingIsGain cats p = false →
        st.balances.get p.paymentMethod < p.amount →
        runTestInserts cats ids (p :: rest) n st
          = runTestInserts cats ids rest (n + 1) st) := by
  refine ⟨fun expCats d => rfl, ?_, ?_,
    fun cats st p i hg hlow => insertTestTxn_skip cats st p i hg hlow, ?_⟩
  · intro cats st p i hg hfresh
    have hany : st.transactions.any (fun t => t.id == i) = false := by
      simp only [List.any_eq_false, beq_iff_eq]
      exact hfresh
    simp [insertTestTxn, hg, hany]
  · intro cats st p i hg hok hfresh
    have hany : st.transactions.any (fun t => t.id == i) = false := by
      simp only [List.any_eq_false, beq_iff_eq]
      exact hfresh
    simp [insertTestTxn, hg, hok, hany]
  · intro cats ids p rest n st hg hlow
    simp [runTestInserts, insertTestTxn_skip cats st p _ hg hlow]

/-- Witness for C8 at the seeded state (balances 0): a 50 expense is
skipped and the batch continues; a 300 gain is credited unconditionally. -/
theorem c8_generate_test_data_witness :
    chooseTestTxn none seedState.categories
        ⟨true, 0, 7000, 60, .gpay, 3, "Coffee"⟩
      = pickExpenseTxn seedState.categories
          ⟨true, 0, 7000, 60, .gpay, 3, "Coffee"⟩ ∧
    insertTestTxn seedState.categories seedState
        ⟨.gpay, 2, 300, some "Gift (Test)", 4⟩ "g1"
      = some
        { seedState with
            balances := seedState.balances.set PaymentMethod.gpay
              (seedState.balances.get PaymentMethod.gpay + 300),
            transactions := seedState.transactions ++
              [⟨"g1", 4, .gpay, 2, 300,
                reasonOrNull (some "Gift (Test)")⟩] } ∧
    insertTestTxn seedState.categories seedState
        ⟨.gpay, 3, 50, some "Coffee (Test)", 4⟩ "e1" = some seedState ∧
    runTestInserts seedState.categories (fun _ => "e1")
        [⟨.gpay, 3, 50, some "Coffee (Test)", 4⟩] 0 seedState
      = runTestInserts seedState.categories (fun _ => "e1") [] 1 seedState :=
  ⟨c8_generate_test_data.1 seedState.categories _,
   c8_generate_test_data.2.1 seedState.categories seedState _ "g1" (by decide)
     (by decide),
   c8_generate_test_data.2.2.2.1 seedState.categories seedState _ "e1"
     (by decide) (by decide),
   c8_generate_test_data.2.2.2.2 seedState.categories (fun _ => "e1") _ [] 0
     seedState (by decide) (by decide)⟩

/-! ## C1 lemmas -/

theorem txnSum_nil (cats : List Category) (m : PaymentMethod) :
    txnSum cats m [] = 0 := rfl

theorem txnSum_cons (cats : List Category) (m : PaymentMethod) (a : Txn)
    (l : List Txn) :
    txnSum cats m (a :: l) = contrib cats m a + txnSum cats m l := by
  by_cases h : (a.paymentMethod == m) = true
  · simp [txnSum, contrib, List.filter_cons, h]
  · simp [txnSum, contrib, List.filter_cons, h]

theorem txnSum_append (cats : List Category) (m : PaymentMethod)
    (l1 l2 : List Txn) :
    txnSum cats m (l1 ++ l2) = txnSum cats m l1 + txnSum cats m l2 := by
  simp [txnSum, List.filter_append]

theorem filter_ne_id_eq_self {l : List Txn} {tid : String}
    (h : ∀ u ∈ l, u.id ≠ tid) :
    l.filter (fun u => u.id != tid) = l := by
  rw [List.filter_eq_self]
  intro u hu
  simpa using h u hu

theorem map_upd_eq_self {l : List Txn} {tid : String}
    (data : NewTransactionData) (now : Int)
    (h : ∀ u ∈ l, u.id ≠ tid) :
    l.map (fun u => if u.id == tid then updRow data now u else u) = l := by
  induction l with
  | nil => rfl
  | cons a l ih =>
    have ha : (a.id == tid) = false := by
      simpa using h a (by simp)
    simp only [List.map_cons, ha, Bool.false_eq_true, if_false]
    rw [ih (fun u hu => h u (by simp [hu]))]

theorem txnSum_filter_out (cats : List Category) (m : PaymentMethod) :
    ∀ (l : List Txn) (tid : String) (t : Txn),
      l.find? (fun u => u.id == tid) = some t →
      (l.map Txn.id).Nodup →
      txnSum cats m (l.filter (fun u => u.id != tid))
        = txnSum cats m l - contrib cats m t := by
  intro l
  induction l with
  | nil => intro tid t hfind; simp at hfind
  | cons a l ih =>
    intro tid t hfind hnodup
    by_cases h : (a.id == tid) = true
    · have hfc : (a :: l).find? (fun u => u.id == tid) = some a := by
        simp [h]
      rw [hfc] at hfind
      obtain rfl : a = t := by simpa using hfind
      have hmem : ∀ u ∈ l, u.id ≠ tid := by
        intro u hu hut
        have haid : a.id = tid := by simpa using h
        have : a.id ∈ l.map Txn.id := by
          rw [haid, ← hut]
          exact List.mem_map_of_mem Txn.id hu
        exact (List.nodup_cons.mp hnodup).1 this
      have hfa : (a.id != tid) = false := by simp [bne, h]
      rw [List.filter_cons, hfa]
      simp only [Bool.false_eq_true, if_false]
      rw [filter_ne_id_eq_self hmem, txnSum_cons]
      ring
    · have hb : (a.id == tid) = false := by simpa using h
      have hfc : (a :: l).find? (fun u => u.id == tid)
          = l.find? (fun u => u.id == tid) := by
        simp [hb]
      rw [hfc] at hfind
      have hka : (a.id != tid) = true := by simp [bne, hb]
      rw [List.filter_cons, hka]
      simp only [if_true]
      rw [txnSum_cons, txnSum_cons,
        ih tid t hfind (List.nodup_cons.mp hnodup).2]
      ring

theorem txnSum_map_upd (cats : List Category) (m : PaymentMethod)
    (data : NewTransactionData) (now : Int) :
    ∀ (l : List Txn) (tid : String) (t : Txn),
      l.find? (fun u => u.id == tid) = some t →
      (l.map Txn.id).Nodup →
      txnSum cats m (l.map (fun u => if u.id == tid then updRow data now u else u))
        = txnSum cats m l - contrib cats m t + contrib cats m (updRow data now t) := by
  intro l
  induction l with
  | nil => intro tid t hfind; simp at hfind
  | cons a l ih =>
    intro tid t hfind hnodup
    by_cases h : (a.id == tid) = true
    · have hfc : (a :: l).find? (fun u => u.id == tid) = some a := by
        simp [h]
      rw [hfc] at hfind
      obtain rfl : a = t := by simpa using hfind
      have hmem : ∀ u ∈ l, u.id ≠ tid := by
        intro u hu hut
        have haid : a.id = tid := by simpa using h
        have : a.id ∈ l.map Txn.id := by
          rw [haid, ← hut]
          exact List.mem_map_of_mem Txn.id hu
        exact (List.nodup_cons.mp hnodup).1 this
      rw [List.map_cons]
      simp only [h, if_true]
      rw [map_upd_eq_self data now hmem, txnSum_cons, txnSum_cons]
      ring
    · have hb : (a.id == tid) = false := by simpa using h
      have hfc : (a :: l).find? (fun u => u.id == tid)
          = l.find? (fun u => u.id == tid) := by
        simp [hb]
      rw [hfc] at hfind
      rw [List.map_cons]
      simp only [hb, Bool.false_eq_true, if_false]
      rw [txnSum_cons, txnSum_cons,
        ih tid t hfind (List.nodup_cons.mp hnodup).2]
      ring

theorem addTransaction_preserves (st : DBState) (newId : String) (ts : Int)
    (data : NewTransactionData)
    (hn : IdsNodup st) (hinv : BalanceInv st) :
    IdsNodup (addTransaction st newId ts data).2 ∧
      BalanceInv (addTransaction st newId ts data).2 := by
  match hfc : findCategory st.categories data.categoryId with
  | none =>
    simp only [addTransaction, hfc]
    exact ⟨hn, hinv⟩
  | some cat =>
    match hany : st.transactions.any (fun t => t.id == newId) with
    | true =>
      simp only [addTransaction, hfc, hany, if_true]
      exact ⟨hn, hinv⟩
    | false =>
      simp only [addTransaction, hfc, hany, Bool.false_eq_true, if_false]
      constructor
      · have hfresh : ∀ x ∈ st.transactions, ¬x.id = newId := by
          intro u hu
          have := List.any_eq_false.mp hany u hu
          simpa using this
        simpa [IdsNodup, List.nodup_append] using ⟨hn, hfresh⟩
      · intro m
        have heff : effect st.categories
            ⟨newId, ts, data.paymentMethod, data.categoryId, data.amount,
              data.reason⟩
            = if isGainName cat.name then data.amount else -data.amount := by
          simp [effect, txnWasGain, hfc]
        by_cases hm : data.paymentMethod = m
        · subst hm
          rw [Balances.get_set_self]
          rw [txnSum_append, txnSum_cons, txnSum_nil]
          rw [hinv data.paymentMethod]
          simp only [contrib, beq_self_eq_true, if_true, heff]
          by_cases hg : isGainName cat.name = true
          · simp only [hg, if_true]
            try ring
          · simp only [hg, Bool.false_eq_true, if_false]
            try ring
        · rw [Balances.get_set_ne _ _ _ _ hm]
          rw [txnSum_append, txnSum_cons, txnSum_nil]
          have hc : contrib st.categories m
              ⟨newId, ts, data.paymentMethod, data.categoryId, data.amount,
                data.reason⟩ = 0 := by
            simp [contrib, hm]
          rw [hc, hinv m]
          ring

theorem deleteTransaction_preserves (st : DBState) (tid : String)
    (hn : IdsNodup st) (hinv : BalanceInv st) :
    IdsNodup (deleteTransaction st tid).2 ∧
      BalanceInv (deleteTransaction st tid).2 := by
  match hf : st.transactions.find? (fun t => t.id == tid) with
  | none =>
    simp only [deleteTransaction, hf]
    exact ⟨hn, hinv⟩
  | some t =>
    match hfc : findCategory st.categories t.categoryId with
    | none =>
      simp only [deleteTransaction, hf, hfc]
      exact ⟨hn, hinv⟩
    | some cat =>
      simp only [deleteTransaction, hf, hfc]
      constructor
      · exact List.Nodup.sublist
          (List.Sublist.map Txn.id (List.filter_sublist _)) hn
      · intro m
        rw [txnSum_filter_out st.categories m st.transactions tid t hf hn]
        have heff : effect st.categories t
            = if isGainName cat.name then t.amount else -t.amount := by
          simp [effect, txnWasGain, hfc]
        by_cases hm : t.paymentMethod = m
        · subst hm
          rw [Balances.get_set_self, hinv t.paymentMethod]
          simp only [contrib, beq_self_eq_true, if_true, heff]
          by_cases hg : isGainName cat.name = true
          · simp only [hg, if_true]
            try ring
          · simp only [hg, Bool.false_eq_true, if_false]
            try ring
        · rw [Balances.get_set_ne _ _ _ _ hm]
          have hc : contrib st.categories m t = 0 := by
            simp [contrib, hm]
          rw [hc, hinv m]
          ring

theorem updateTransaction_preserves (st : DBState) (tid : String)
    (data : NewTransactionData) (now : Int)
    (hn : IdsNodup st) (hinv : BalanceInv st) :
    IdsNodup (updateTransaction st tid data now).2 ∧
      BalanceInv (updateTransaction st tid data now).2 := by
  match hf : st.transactions.find? (fun t => t.id == tid) with
  | none =>
    simp only [updateTransaction, hf]
    exact ⟨hn, hinv⟩
  | some oldT =>
    match hfc : findCategory st.categories data.categoryId with
    | none =>
      simp only [updateTransaction, hf, hfc]
      exact ⟨hn, hinv⟩
    | some newCat =>
      simp only [updateTransaction, hf, hfc]
      constructor
      · show (List.map Txn.id (st.transactions.map
            (fun u => if u.id == tid then updRow data now u else u))).Nodup
        rw [List.map_map]
        have hids : st.transactions.map
            (Txn.id ∘ fun u => if u.id == tid then updRow data now u else u)
            = st.transactions.map Txn.id := by
          apply List.map_congr_left
          intro u _
          by_cases h : (u.id == tid) = true
          · have hu : u.id = tid := by simpa using h
            simp [Function.comp, h, hu, updRow]
          · have hu : ¬u.id = tid := by simpa using h
            simp [Function.comp, h, hu]
        rw [hids]
        exact hn
      · intro m
        rw [txnSum_map_upd st.categories m data now st.transactions tid oldT
          hf hn]
        have hupd : effect st.categories (updRow data now oldT)
            = if isGainName newCat.name then data.amount else -data.amount := by
          simp [effect, txnWasGain, updRow, hfc]
        by_cases hpm : (oldT.paymentMethod != data.paymentMethod) = true
        · -- payment method changed: revert on the old method, apply on the new
          have hne : oldT.paymentMethod ≠ data.paymentMethod := by
            simpa using hpm
          simp only [hpm, if_true]
          by_cases hm1 : oldT.paymentMethod = m
          · subst hm1
            rw [Balances.get_set_ne _ _ _ _ (Ne.symm hne),
              Balances.get_set_self]
            have hc1 : contrib st.categories oldT.paymentMethod oldT
                = effect st.categories oldT := by
              simp [contrib]
            have hc2 : contrib st.categories oldT.paymentMethod
                (updRow data now oldT) = 0 := by
              simp [contrib, updRow, Ne.symm hne]
            rw [hc1, hc2, hinv oldT.paymentMethod]
            simp only [effect]
            by_cases hw : txnWasGain st.categories oldT = true
            · simp only [hw, if_true]
              ring
            · simp only [hw, Bool.false_eq_true, if_false]
              ring
          · by_cases hm2 : data.paymentMethod = m
            · subst hm2
              rw [Balances.get_set_self, Balances.get_set_ne _ _ _ _ hne]
              have hc1 : contrib st.categories data.paymentMethod oldT = 0 := by
                simp [contrib, hne]
              have hc2 : contrib st.categories data.paymentMethod
                  (updRow data now oldT)
                  = effect st.categories (updRow data now oldT) := by
                simp [contrib, updRow]
              rw [hc1, hc2, hinv data.paymentMethod, hupd]
              by_cases hg : isGainName newCat.name = true
              · simp only [hg, if_true]
                ring
              · simp only [hg, Bool.false_eq_true, if_false]
                ring
            · rw [Balances.get_set_ne _ _ _ _ hm2,
                Balances.get_set_ne _ _ _ _ hm1]
              have hc1 : contrib st.categories m oldT = 0 := by
                simp [contrib, hm1]
              have hc2 : contrib st.categories m (updRow data now oldT) = 0 := by
                simp [contrib, updRow, hm2]
              rw [hc1, hc2, hinv m]
              ring
        · -- same payment method: apply the net delta once
          have heq : oldT.paymentMethod = data.paymentMethod := by
            simpa using hpm
          simp only [hpm, Bool.false_eq_true, if_false]
          by_cases hm : data.paymentMethod = m
          · subst hm
            rw [Balances.get_set_self]
            have hc1 : contrib st.categories data.paymentMethod oldT
                = effect st.categories oldT := by
              simp [contrib, heq]
            have hc2 : contrib st.categories data.paymentMethod
                (updRow data now oldT)
                = effect st.categories (updRow data now oldT) := by
              simp [contrib, updRow]
            rw [hc1, hc2, hinv data.paymentMethod, hupd]
            simp only [effect]
            by_cases hw : txnWasGain st.categories oldT = true
            · by_cases hg : isGainName newCat.name = true
              · simp only [hw, hg, if_true]
                ring
              · simp only [hw, hg, if_true, Bool.false_eq_true, if_false]
                ring
            · by_cases hg : isGainName newCat.name = true
              · simp only [hw, hg, if_true, Bool.false_eq_true, if_false]
                ring
              · simp only [hw, hg, Bool.false_eq_true, if_false]
                ring
          · rw [Balances.get_set_ne _ _ _ _ hm]
            have hc1 : contrib st.categories m oldT = 0 := by
              simp [contrib, heq, hm]
            have hc2 : contrib st.categories m (updRow data now oldT) = 0 := by
              simp [contrib, updRow, hm]
            rw [hc1, hc2, hinv m]
            ring

theorem applyOp_preserves (st : DBState) (op : LedgerOp)
    (hn : IdsNodup st) (hinv : BalanceInv st) :
    IdsNodup (applyOp st op) ∧ BalanceInv (applyOp st op) := by
  match op with
  | .addTx i ts d => exact addTransaction_preserves st i ts d hn hinv
  | .updateTx i d n => exact updateTransaction_preserves st i d n hn hinv
  | .deleteTx i => exact deleteTransaction_preserves st i hn hinv

/-- C1: starting from any state satisfying the schema's id-uniqueness
constraint in which the balance invariant holds, every sequence of
addTransaction / updateTransaction / deleteTransaction operations
preserves the invariant: after each completed operation, each payment
method's balance equals the sum over the currently-existing transactions
of that method of `effect(t)` (`+amount` for the Gain category,
case-insensitively; `-amount` otherwise). -/
theorem c1_balance_invariant (st : DBState) (ops : List LedgerOp)
    (hn : IdsNodup st) (hinv : BalanceInv st) :
    BalanceInv (applyOps st ops) := by
  induction ops generalizing st with
  | nil => exact hinv
  | cons op rest ih =>
    have h := applyOp_preserves st op hn hinv
    exact ih (applyOp st op) h.1 h.2

/-- Witness for C1: a concrete add / update / delete sequence from the
demo state. -/
theorem c1_balance_invariant_witness :
    BalanceInv (applyOps demoState
      [.addTx "n1" 30 ⟨.cash, 2, 500, none⟩,
       .updateTx "tx2" ⟨.gpay, 3, 10, some "snack"⟩ 40,
       .deleteTx "tx1"]) :=
  c1_balance_invariant demoState
    [.addTx "n1" 30 ⟨.cash, 2, 500, none⟩,
     .updateTx "tx2" ⟨.gpay, 3, 10, some "snack"⟩ 40,
     .deleteTx "tx1"]
    (by decide) (by decide)
